import Mathlib

/-!
Verification development for the Hedge Your Bets sports-betting repository.

Part A embeds the Bet Outcome Scorer.  The scorer itself (the Python
`prediction_service.py` of `backend/ml_service`) is not present in the
repository snapshot; only its README documentation (`src/unnamed/part_001`)
and its UI consumers are.  The scorer definitions below are therefore
modelled from the specification's own algorithm description, with the one
free constant (the default payout multiplier) pinned by the README's
documented example output.

Part B embeds the bet-history API route handlers
(`src/frontend/app/api/update-bet/route.ts`,
`src/frontend/app/api/delete-bets/route.ts`) over an explicit model of the
DynamoDB `PreviousBets` table.

Part C embeds the `calculateROI` function of
`src/frontend/app/previous-bets/page.jsx`.
-/

/-- Modelled from the spec: scorer inputs are floating-point numbers, and the
validation rejects a non-finite `threshold`.  Finite values are embedded as
rationals; the non-finite floating-point values are explicit constructors. -/
inductive FloatVal where
  | finite (x : ℚ)
  | nan
  | posInf
  | negInf
deriving DecidableEq

/-- Whether a floating-point input value is finite. -/
def FloatVal.isFinite : FloatVal → Bool
  | .finite _ => true
  | _ => false

/-- Modelled from the spec: the single error taxonomy of the scorer,
`InvalidInput`, surfaced with a descriptive message. -/
inductive ScoreError where
  | invalidInput (msg : String)
deriving DecidableEq

/-- The scorer's response shape, from the spec's external-interface contract
and the `PredictionResult` dataclass documented in the ML service README. -/
structure ScoreResult where
  win_probability : ℚ
  expected_value : ℚ
  confidence_level : String
  recommendation : String
deriving DecidableEq

/-- Clamp a rational to the interval [lo, hi]. -/
def clampQ (lo hi x : ℚ) : ℚ := max lo (min hi x)

/-- Modelled from the spec: the approximate CDF through the three quantile
points, two linear segments (10th→50th and 50th→90th percentile), linearly
interpolated (and extrapolated) at the threshold. -/
def rawCdf (q10 q50 q90 t : ℚ) : ℚ :=
  if t ≤ q50 then 1/10 + 2/5 * ((t - q10) / (q50 - q10))
  else 1/2 + 2/5 * ((t - q50) / (q90 - q50))

/-- Modelled from the spec: the interpolated CDF value at the threshold,
clamped to [0.01, 0.99] to avoid degenerate certainty. -/
def cdfAt (q10 q50 q90 t : ℚ) : ℚ := clampQ (1/100) (99/100) (rawCdf q10 q50 q90 t)

/-- Modelled from the spec: for an `over` bet the win probability is
P(value > threshold) = 1 − CDF(threshold); for `under` it is the complement. -/
def winProbability (q10 q50 q90 t : ℚ) (direction : String) : ℚ :=
  if direction = "over" then 1 - cdfAt q10 q50 q90 t else cdfAt q10 q50 q90 t

/-- Modelled from the spec: the fixed payout multiplier assumed when the
caller supplies no odds.  Its value is pinned by the README's documented
example output (win_probability 0.612 with expected_value 0.224 forces
expected_value = 2·p − 1, i.e. an even-money net multiplier of 1). -/
def defaultPayoutMultiplier : ℚ := 1

/-- Modelled from the spec: expected value of the bet,
p · payout_multiplier − (1 − p). -/
def expectedValue (p m : ℚ) : ℚ := p * m - (1 - p)

/-- Modelled from the spec: recommendation label from fixed expected-value
cutoffs (EV > 0.15 Good, EV > 0 Fair, EV > −0.15 Risky, else Poor). -/
def recommendationFor (ev : ℚ) : String :=
  if ev > 15/100 then "Good Bet"
  else if ev > 0 then "Fair Bet"
  else if ev > -(15/100) then "Risky Bet"
  else "Poor Bet"

/-- Modelled from the spec: confidence label from the q10–q90 spread relative
to q50; tighter relative spread means higher confidence.  The cutoffs are
configuration constants, chosen here so the README's documented example
(spread 88.9 around a median of 289.7) is labelled High as documented. -/
def confidenceFor (q10 q50 q90 : ℚ) : String :=
  let spread := q90 - q10
  let rel := if q50 = 0 then spread else spread / |q50|
  if rel ≤ 35/100 then "High"
  else if rel ≤ 7/10 then "Medium"
  else "Low"

/-- Modelled from the spec: the Bet Outcome Scorer.  Validation fails with
`InvalidInput` when q10 > q90, when the threshold is non-finite, or when the
direction is neither over nor under; otherwise the win probability, expected
value, confidence label and recommendation are computed as above. -/
def scoreBet (q10 q50 q90 : ℚ) (threshold : FloatVal) (direction : String)
    (payout : Option ℚ) : Except ScoreError ScoreResult :=
  if q10 > q90 then .error (.invalidInput "invalid quantiles: q10 exceeds q90")
  else
    match threshold with
    | .finite t =>
      if direction = "over" ∨ direction = "under" then
        let p := winProbability q10 q50 q90 t direction
        let m := payout.getD defaultPayoutMultiplier
        let ev := expectedValue p m
        .ok { win_probability := p
              expected_value := ev
              confidence_level := confidenceFor q10 q50 q90
              recommendation := recommendationFor ev }
      else .error (.invalidInput "direction must be over or under")
    | _ => .error (.invalidInput "threshold is not finite")

/-- Win probability documented in the ML service README's example output
(src/unnamed/part_001, Example Output block). -/
def readmeWinProbability : ℚ := 612/1000

/-- Expected value documented in the ML service README's example output
(src/unnamed/part_001, Example Output block). -/
def readmeExpectedValue : ℚ := 224/1000

theorem le_clampQ (lo hi x : ℚ) : lo ≤ clampQ lo hi x := le_max_left _ _

theorem clampQ_le (lo hi x : ℚ) (h : lo ≤ hi) : clampQ lo hi x ≤ hi :=
  max_le h (min_le_left _ _)

theorem clampQ_mono (lo hi : ℚ) {x y : ℚ} (h : x ≤ y) :
    clampQ lo hi x ≤ clampQ lo hi y :=
  max_le_max le_rfl (min_le_min le_rfl h)

theorem winProbability_mem (q10 q50 q90 t : ℚ) (d : String) :
    1/100 ≤ winProbability q10 q50 q90 t d ∧ winProbability q10 q50 q90 t d ≤ 99/100 := by
  have hlo : (1:ℚ)/100 ≤ cdfAt q10 q50 q90 t := le_clampQ _ _ _
  have hhi : cdfAt q10 q50 q90 t ≤ 99/100 := clampQ_le _ _ _ (by norm_num)
  unfold winProbability
  split
  · constructor <;> linarith
  · exact ⟨hlo, hhi⟩

theorem scoreBet_ok_of_valid (q10 q50 q90 t : ℚ) (d : String) (m : Option ℚ)
    (h1 : q10 ≤ q90) (h2 : d = "over" ∨ d = "under") :
    scoreBet q10 q50 q90 (.finite t) d m =
      .ok { win_probability := winProbability q10 q50 q90 t d
            expected_value :=
              expectedValue (winProbability q10 q50 q90 t d) (m.getD defaultPayoutMultiplier)
            confidence_level := confidenceFor q10 q50 q90
            recommendation :=
              recommendationFor
                (expectedValue (winProbability q10 q50 q90 t d) (m.getD defaultPayoutMultiplier)) } := by
  unfold scoreBet
  rw [if_neg (not_lt.mpr h1)]
  dsimp only
  rw [if_pos h2]

theorem rawCdf_mono (q10 q50 q90 : ℚ) (hs1 : q10 ≤ q50) (hs2 : q50 ≤ q90)
    {t1 t2 : ℚ} (ht : t1 ≤ t2) :
    rawCdf q10 q50 q90 t1 ≤ rawCdf q10 q50 q90 t2 := by
  unfold rawCdf
  split_ifs with ha hb hb
  · rcases eq_or_lt_of_le hs1 with h | h
    · rw [← h]
      simp
    · have hd : (0:ℚ) < q50 - q10 := by linarith
      have hdiv : (t1 - q10) / (q50 - q10) ≤ (t2 - q10) / (q50 - q10) := by
        gcongr
      linarith
  · have hx : (t1 - q10) / (q50 - q10) ≤ 1 := by
      rcases eq_or_lt_of_le hs1 with h | h
      · rw [← h]
        simp
      · rw [div_le_one (by linarith)]
        linarith
    have hy : 0 ≤ (t2 - q50) / (q90 - q50) := by
      rcases eq_or_lt_of_le hs2 with h | h
      · rw [← h]
        simp
      · apply div_nonneg <;> linarith [lt_of_not_le hb]
    linarith
  · exact absurd (le_trans ht hb) ha
  · rcases eq_or_lt_of_le hs2 with h | h
    · rw [← h]
      simp
    · have hd : (0:ℚ) < q90 - q50 := by linarith
      have hdiv : (t1 - q50) / (q90 - q50) ≤ (t2 - q50) / (q90 - q50) := by
        gcongr
      linarith

theorem recommendationFor_spec (ev : ℚ) :
    (recommendationFor ev = "Good Bet" ↔ 15/100 < ev)
    ∧ (recommendationFor ev = "Fair Bet" ↔ 0 < ev ∧ ev ≤ 15/100)
    ∧ (recommendationFor ev = "Risky Bet" ↔ -(15/100) < ev ∧ ev ≤ 0)
    ∧ (recommendationFor ev = "Poor Bet" ↔ ev ≤ -(15/100)) := by
  unfold recommendationFor
  split_ifs with h1 h2 h3 <;>
    refine ⟨?_, ?_, ?_, ?_⟩ <;>
      simp <;>
        first
          | linarith
          | (constructor <;> linarith)
          | (intro _ ; linarith)

/-- C1: the Bet Outcome Scorer fails with an InvalidInput error exactly when
q10 > q90, when the threshold is non-finite, or when the direction is neither
over nor under; for every other input it succeeds (the model is a total pure
function, so no other failure mode exists).  In particular the inverted
quantiles q10 = 300, q90 = 200 fail with InvalidInput. -/
theorem scoreBet_invalidInput_iff :
    (∀ (q10 q50 q90 : ℚ) (th : FloatVal) (d : String) (m : Option ℚ),
        (∃ msg, scoreBet q10 q50 q90 th d m = .error (.invalidInput msg)) ↔
          (q90 < q10 ∨ th.isFinite = false ∨ (d ≠ "over" ∧ d ≠ "under")))
    ∧ (∃ msg, scoreBet 300 250 200 (.finite 250) "over" none = .error (.invalidInput msg)) := by
  constructor
  · intro q10 q50 q90 th d m
    rcases th with t | _ | _ | _ <;>
      by_cases hq : q90 < q10 <;>
        by_cases hd : d = "over" ∨ d = "under" <;>
          simp [scoreBet, hq, hd, FloatVal.isFinite] <;>
            tauto
  · exact ⟨"invalid quantiles: q10 exceeds q90", by with_unfolding_all rfl⟩

/-- C2: for every valid input (q10 ≤ q90, finite threshold, direction over or
under), the win probability returned by the scorer lies in [0.01, 0.99]. -/
theorem scoreBet_win_probability_in_range (q10 q50 q90 t : ℚ) (d : String) (m : Option ℚ)
    (r : ScoreResult) (hq : q10 ≤ q90) (hd : d = "over" ∨ d = "under")
    (h : scoreBet q10 q50 q90 (.finite t) d m = .ok r) :
    1/100 ≤ r.win_probability ∧ r.win_probability ≤ 99/100 := by
  rw [scoreBet_ok_of_valid q10 q50 q90 t d m hq hd] at h
  simp only [Except.ok.injEq] at h
  subst h
  exact winProbability_mem q10 q50 q90 t d

/-- Witness for C2 at q10 = 1, q50 = 2, q90 = 3, threshold 2, direction over. -/
theorem scoreBet_win_probability_in_range_witness :
    1/100 ≤ (ScoreResult.mk (1/2) 0 "Low" "Risky Bet").win_probability ∧
      (ScoreResult.mk (1/2) 0 "Low" "Risky Bet").win_probability ≤ 99/100 :=
  scoreBet_win_probability_in_range 1 2 3 2 "over" none
    (ScoreResult.mk (1/2) 0 "Low" "Risky Bet") (by norm_num) (Or.inl rfl)
    (by with_unfolding_all rfl)

/-- Counterexample for C3: the documented example output of the source system
(win_probability 0.612, expected_value 0.224 in the ML service README) does
not satisfy expected_value = p·m − (1 − p) for a multiplier consistent with
-110 American odds (net 0.909, or decimal 1.909); it satisfies it exactly for
the even-money multiplier 1 used by the model. -/
theorem readme_expected_value_not_minus110 :
    readmeExpectedValue =
        readmeWinProbability * defaultPayoutMultiplier - (1 - readmeWinProbability)
    ∧ readmeExpectedValue ≠ readmeWinProbability * (1909/1000) - (1 - readmeWinProbability)
    ∧ readmeExpectedValue ≠ readmeWinProbability * (909/1000) - (1 - readmeWinProbability)
    ∧ scoreBet (2453/10) (2897/10) (3342/10) (.finite (2755/10)) "over" none =
        .ok (ScoreResult.mk (697/1110) (142/555) "High" "Good Bet")
    ∧ (142/555 : ℚ) = 2 * (697/1110) - 1 := by
  refine ⟨?_, ?_, ?_, by with_unfolding_all rfl, by norm_num⟩ <;>
    norm_num [readmeExpectedValue, readmeWinProbability, defaultPayoutMultiplier]

/-- C3 (amended): whenever no odds are supplied, the scorer computes
expected_value as win_probability · m − (1 − win_probability) with the fixed
even-money payout multiplier m = 1 (so expected_value = 2·p − 1), matching
the documented example output. -/
theorem scoreBet_expected_value_even_money (q10 q50 q90 t : ℚ) (d : String)
    (r : ScoreResult) (hq : q10 ≤ q90) (hd : d = "over" ∨ d = "under")
    (h : scoreBet q10 q50 q90 (.finite t) d none = .ok r) :
    r.expected_value = r.win_probability * 1 - (1 - r.win_probability) := by
  rw [scoreBet_ok_of_valid q10 q50 q90 t d none hq hd] at h
  simp only [Except.ok.injEq] at h
  subst h
  rfl

/-- Witness for C3's amended theorem at q10 = 1, q50 = 2, q90 = 3,
threshold 2, direction over. -/
theorem scoreBet_expected_value_even_money_witness :
    (ScoreResult.mk (1/2) 0 "Low" "Risky Bet").expected_value =
      (ScoreResult.mk (1/2) 0 "Low" "Risky Bet").win_probability * 1 -
        (1 - (ScoreResult.mk (1/2) 0 "Low" "Risky Bet").win_probability) :=
  scoreBet_expected_value_even_money 1 2 3 2 "over"
    (ScoreResult.mk (1/2) 0 "Low" "Risky Bet") (by norm_num) (Or.inl rfl)
    (by with_unfolding_all rfl)

/-- C4: the recommendation is derived from expected_value by the fixed
cutoffs (EV > 0.15 Good Bet, 0 < EV ≤ 0.15 Fair Bet, −0.15 < EV ≤ 0 Risky
Bet, EV ≤ −0.15 Poor Bet), and the example q10 = 245.3, q50 = 289.7,
q90 = 334.2, threshold 275.5, direction over yields a win probability within
0.02 of 0.61 and the recommendation Good Bet. -/
theorem scoreBet_recommendation_from_cutoffs (q10 q50 q90 t : ℚ) (d : String) (m : Option ℚ)
    (r : ScoreResult) (hq : q10 ≤ q90) (hd : d = "over" ∨ d = "under")
    (h : scoreBet q10 q50 q90 (.finite t) d m = .ok r) :
    ((r.recommendation = "Good Bet" ↔ 15/100 < r.expected_value)
      ∧ (r.recommendation = "Fair Bet" ↔ 0 < r.expected_value ∧ r.expected_value ≤ 15/100)
      ∧ (r.recommendation = "Risky Bet" ↔ -(15/100) < r.expected_value ∧ r.expected_value ≤ 0)
      ∧ (r.recommendation = "Poor Bet" ↔ r.expected_value ≤ -(15/100)))
    ∧ (∃ re, scoreBet (2453/10) (2897/10) (3342/10) (.finite (2755/10)) "over" none = .ok re
        ∧ |re.win_probability - 61/100| ≤ 1/50 ∧ re.recommendation = "Good Bet") := by
  constructor
  · rw [scoreBet_ok_of_valid q10 q50 q90 t d m hq hd] at h
    simp only [Except.ok.injEq] at h
    subst h
    exact recommendationFor_spec _
  · refine ⟨ScoreResult.mk (697/1110) (142/555) "High" "Good Bet",
      by with_unfolding_all rfl, ?_, rfl⟩
    rw [abs_sub_le_iff]
    norm_num

/-- Witness for C4 at q10 = 1, q50 = 2, q90 = 3, threshold 2, direction over
(expected value 0, so the Risky Bet clause applies). -/
theorem scoreBet_recommendation_from_cutoffs_witness :
    (ScoreResult.mk (1/2) 0 "Low" "Risky Bet").recommendation = "Risky Bet" ↔
      -(15/100) < (ScoreResult.mk (1/2) 0 "Low" "Risky Bet").expected_value ∧
        (ScoreResult.mk (1/2) 0 "Low" "Risky Bet").expected_value ≤ 0 :=
  (scoreBet_recommendation_from_cutoffs 1 2 3 2 "over" none
    (ScoreResult.mk (1/2) 0 "Low" "Risky Bet") (by norm_num) (Or.inl rfl)
    (by with_unfolding_all rfl)).1.2.2.1

/-- C5: for a fixed sorted quantile triple (q10 ≤ q50 ≤ q90, i.e. a valid
quantile triple), increasing the threshold never increases the win
probability for direction over and never decreases it for direction under. -/
theorem scoreBet_win_probability_monotone (q10 q50 q90 t1 t2 : ℚ) (m : Option ℚ)
    (r1 r2 s1 s2 : ScoreResult)
    (hs1 : q10 ≤ q50) (hs2 : q50 ≤ q90) (ht : t1 ≤ t2)
    (h1 : scoreBet q10 q50 q90 (.finite t1) "over" m = .ok r1)
    (h2 : scoreBet q10 q50 q90 (.finite t2) "over" m = .ok r2)
    (h3 : scoreBet q10 q50 q90 (.finite t1) "under" m = .ok s1)
    (h4 : scoreBet q10 q50 q90 (.finite t2) "under" m = .ok s2) :
    r2.win_probability ≤ r1.win_probability ∧ s1.win_probability ≤ s2.win_probability := by
  have hq : q10 ≤ q90 := le_trans hs1 hs2
  rw [scoreBet_ok_of_valid _ _ _ _ _ _ hq (Or.inl rfl)] at h1 h2
  rw [scoreBet_ok_of_valid _ _ _ _ _ _ hq (Or.inr rfl)] at h3 h4
  simp only [Except.ok.injEq] at h1 h2 h3 h4
  subst h1
  subst h2
  subst h3
  subst h4
  have hmono : cdfAt q10 q50 q90 t1 ≤ cdfAt q10 q50 q90 t2 :=
    clampQ_mono _ _ (rawCdf_mono q10 q50 q90 hs1 hs2 ht)
  constructor
  · show winProbability q10 q50 q90 t2 "over" ≤ winProbability q10 q50 q90 t1 "over"
    unfold winProbability
    rw [if_pos rfl, if_pos rfl]
    linarith
  · show winProbability q10 q50 q90 t1 "under" ≤ winProbability q10 q50 q90 t2 "under"
    unfold winProbability
    rw [if_neg (by decide), if_neg (by decide)]
    exact hmono

/-- Witness for C5 at q10 = 1, q50 = 2, q90 = 3, thresholds 1 and 3. -/
theorem scoreBet_win_probability_monotone_witness :
    (ScoreResult.mk (1/10) (-(4/5)) "Low" "Poor Bet").win_probability ≤
        (ScoreResult.mk (9/10) (4/5) "Low" "Good Bet").win_probability ∧
      (ScoreResult.mk (1/10) (-(4/5)) "Low" "Poor Bet").win_probability ≤
        (ScoreResult.mk (9/10) (4/5) "Low" "Good Bet").win_probability :=
  scoreBet_win_probability_monotone 1 2 3 1 3 none
    (ScoreResult.mk (9/10) (4/5) "Low" "Good Bet")
    (ScoreResult.mk (1/10) (-(4/5)) "Low" "Poor Bet")
    (ScoreResult.mk (1/10) (-(4/5)) "Low" "Poor Bet")
    (ScoreResult.mk (9/10) (4/5) "Low" "Good Bet")
    (by norm_num) (by norm_num) (by norm_num)
    (by with_unfolding_all rfl) (by with_unfolding_all rfl)
    (by with_unfolding_all rfl) (by with_unfolding_all rfl)

/-- C6: scoring the same valid quantiles and threshold with direction under
yields exactly the complement of the win probability for direction over
(both are read off the same clamped CDF value, so the relation is exact, in
particular within the interpolation-boundary rounding the claim allows). -/
theorem scoreBet_under_complement (q10 q50 q90 t : ℚ) (m : Option ℚ) (ro ru : ScoreResult)
    (hq : q10 ≤ q90)
    (ho : scoreBet q10 q50 q90 (.finite t) "over" m = .ok ro)
    (hu : scoreBet q10 q50 q90 (.finite t) "under" m = .ok ru) :
    ru.win_probability = 1 - ro.win_probability := by
  rw [scoreBet_ok_of_valid _ _ _ _ _ _ hq (Or.inl rfl)] at ho
  rw [scoreBet_ok_of_valid _ _ _ _ _ _ hq (Or.inr rfl)] at hu
  simp only [Except.ok.injEq] at ho hu
  subst ho
  subst hu
  show winProbability q10 q50 q90 t "under" = 1 - winProbability q10 q50 q90 t "over"
  unfold winProbability
  rw [if_neg (by decide), if_pos rfl]
  ring

/-- Witness for C6 at q10 = 1, q50 = 2, q90 = 3, threshold 2. -/
theorem scoreBet_under_complement_witness :
    (ScoreResult.mk (1/2) 0 "Low" "Risky Bet").win_probability =
      1 - (ScoreResult.mk (1/2) 0 "Low" "Risky Bet").win_probability :=
  scoreBet_under_complement 1 2 3 2 none
    (ScoreResult.mk (1/2) 0 "Low" "Risky Bet")
    (ScoreResult.mk (1/2) 0 "Low" "Risky Bet")
    (by norm_num) (by with_unfolding_all rfl) (by with_unfolding_all rfl)

/-- C7: for a strictly sorted quantile triple, a threshold equal to q50 with
direction over yields a win probability of exactly 0.5. -/
theorem scoreBet_median_half (q10 q50 q90 : ℚ) (m : Option ℚ) (r : ScoreResult)
    (h1 : q10 < q50) (h2 : q50 < q90)
    (h : scoreBet q10 q50 q90 (.finite q50) "over" m = .ok r) :
    r.win_probability = 1/2 := by
  rw [scoreBet_ok_of_valid _ _ _ _ _ _ (le_of_lt (lt_trans h1 h2)) (Or.inl rfl)] at h
  simp only [Except.ok.injEq] at h
  subst h
  have hraw : rawCdf q10 q50 q90 q50 = 1/2 := by
    unfold rawCdf
    rw [if_pos le_rfl, div_self (sub_ne_zero.mpr (ne_of_gt h1))]
    norm_num
  show winProbability q10 q50 q90 q50 "over" = 1/2
  unfold winProbability
  rw [if_pos rfl]
  unfold cdfAt
  rw [hraw]
  unfold clampQ
  rw [min_eq_right (by norm_num), max_eq_right (by norm_num)]
  norm_num

/-- Witness for C7 at q10 = 1, q50 = 2, q90 = 3, threshold 2. -/
theorem scoreBet_median_half_witness :
    (ScoreResult.mk (1/2) 0 "Low" "Risky Bet").win_probability = 1/2 :=
  scoreBet_median_half 1 2 3 none (ScoreResult.mk (1/2) 0 "Low" "Risky Bet")
    (by norm_num) (by norm_num) (by with_unfolding_all rfl)

/-- C8: the scorer is deterministic — two invocations with identical inputs
return identical outputs.  Side-effect freedom holds by construction: the
model is a total function from its arguments to its result and there is no
external state for it to touch. -/
theorem scoreBet_deterministic (q10 q50 q90 q10' q50' q90' : ℚ) (th th' : FloatVal)
    (d d' : String) (m m' : Option ℚ)
    (e1 : q10 = q10') (e2 : q50 = q50') (e3 : q90 = q90') (e4 : th = th')
    (e5 : d = d') (e6 : m = m') :
    scoreBet q10 q50 q90 th d m = scoreBet q10' q50' q90' th' d' m' := by
  subst_vars
  rfl

/-- Witness for C8 at a concrete repeated invocation. -/
theorem scoreBet_deterministic_witness :
    scoreBet 1 2 3 (.finite 2) "over" none = scoreBet 1 2 3 (.finite 2) "over" none :=
  scoreBet_deterministic 1 2 3 1 2 3 (.finite 2) (.finite 2) "over" "over" none none
    rfl rfl rfl rfl rfl rfl

/-- An item of the DynamoDB `PreviousBets` table: partition key `UserId`,
sort key `createdAt`, plus the mutable `status` and `result` attributes that
the update route touches. -/
structure BetItem where
  userId : String
  createdAt : String
  status : String
  result : Option String
deriving DecidableEq

/-- The NextAuth session as the route handlers see it: absent, present
without a user id, or an authenticated user.  Both of the first two cases
fail the `!session || !session.user?.id` guard. -/
inductive Session where
  | noSession
  | userWithoutId
  | activeUser (id : String)
deriving DecidableEq

/-- The authenticated user id of a session, if any. -/
def Session.userId : Session → Option String
  | .activeUser i => some i
  | _ => none

/-- JavaScript truthiness of an optional string field: missing and empty
strings are falsy. -/
def jsTruthy : Option String → Bool
  | none => false
  | some s => s != ""

/-- The JSON body of the update-bet PATCH request. -/
structure UpdateBody where
  betId : Option String
  status : Option String
  result : Option String

/-- An HTTP response, reduced to its status code. -/
structure ApiResponse where
  status : Nat
deriving DecidableEq

/-- The per-item effect of the `UpdateCommand`: the item keyed by
(uid, betId) gets the new status, and the new result when one was supplied
(the update expression only includes `#result` when `result` is truthy);
every other item is untouched. -/
def updateItemFn (uid betId st : String) (res : Option String) (it : BetItem) : BetItem :=
  if it.userId == uid && it.createdAt == betId then
    { it with status := st, result := if jsTruthy res then res else it.result }
  else it

/-- The `UpdateCommand` of update-bet/route.ts against the table model: the
condition expression `UserId = :userId` evaluates against the item keyed by
(uid, betId), so it fails (raising ConditionalCheckFailed, `none` here)
exactly when no such item exists, and the keyed item is updated otherwise. -/
def dynamoUpdateBet (table : List BetItem) (uid betId st : String) (res : Option String) :
    Option (List BetItem) :=
  if table.any (fun it => it.userId == uid && it.createdAt == betId) then
    some (table.map (updateItemFn uid betId st res))
  else none

/-- The PATCH handler of src/frontend/app/api/update-bet/route.ts: 401
without a session user id, 400 when betId or status is falsy, 500 when the
conditional update fails (caught exception), 200 otherwise. -/
def updateBetHandler (session : Session) (body : UpdateBody) (table : List BetItem) :
    ApiResponse × List BetItem :=
  match session.userId with
  | none => (⟨401⟩, table)
  | some uid =>
    if !jsTruthy body.betId || !jsTruthy body.status then (⟨400⟩, table)
    else
      match dynamoUpdateBet table uid (body.betId.getD "")
          ((body.status.getD "").toUpper) body.result with
      | some t2 => (⟨200⟩, t2)
      | none => (⟨500⟩, table)

/-- The DELETE handler of src/frontend/app/api/delete-bets/route.ts: 401
without a session user id, 400 when createdAt is falsy; otherwise the
`DeleteCommand` removes the item keyed by (uid, createdAt), and the handler
answers 404 when `ReturnValues: ALL_OLD` shows no such item existed, 200
otherwise. -/
def deleteBetHandler (session : Session) (createdAt : Option String) (table : List BetItem) :
    ApiResponse × List BetItem :=
  match session.userId with
  | none => (⟨401⟩, table)
  | some uid =>
    if !jsTruthy createdAt then (⟨400⟩, table)
    else
      let ca := createdAt.getD ""
      let existed := table.any (fun it => it.userId == uid && it.createdAt == ca)
      let t2 := table.filter (fun it => !(it.userId == uid && it.createdAt == ca))
      if existed then (⟨200⟩, t2) else (⟨404⟩, t2)

theorem updateItemFn_userId (uid betId st : String) (res : Option String) (it : BetItem) :
    (updateItemFn uid betId st res it).userId = it.userId := by
  unfold updateItemFn
  split <;> rfl

theorem updateItemFn_of_ne (uid betId st : String) (res : Option String) (it : BetItem)
    (h : it.userId ≠ uid) : updateItemFn uid betId st res it = it := by
  unfold updateItemFn
  rw [if_neg]
  simp [h]

theorem map_update_filter_other (uid betId st : String) (res : Option String)
    (t : List BetItem) :
    (t.map (updateItemFn uid betId st res)).filter (fun it => it.userId != uid) =
      t.filter (fun it => it.userId != uid) := by
  induction t with
  | nil => rfl
  | cons a t ih =>
    by_cases h : a.userId = uid
    · have h1 : (a.userId != uid) = false := by simp [h]
      have h2 : ((updateItemFn uid betId st res a).userId != uid) = false := by
        rw [updateItemFn_userId]
        exact h1
      simp [List.filter_cons, h1, h2, ih]
    · have h1 : (a.userId != uid) = true := by simp [h]
      have h2 : ((updateItemFn uid betId st res a).userId != uid) = true := by
        rw [updateItemFn_userId]
        exact h1
      simp [List.filter_cons, h1, h2, ih, updateItemFn_of_ne uid betId st res a h]

theorem filter_key_filter_other (uid ca : String) (t : List BetItem) :
    (t.filter (fun it => !(it.userId == uid && it.createdAt == ca))).filter
        (fun it => it.userId != uid) =
      t.filter (fun it => it.userId != uid) := by
  rw [List.filter_filter]
  have hfun : (fun it : BetItem =>
      (it.userId != uid) && !(it.userId == uid && it.createdAt == ca)) =
      (fun it : BetItem => it.userId != uid) := by
    funext it
    by_cases h : it.userId = uid <;> simp [h]
  rw [hfun]

theorem updateItemFn_of_ne_key (uid betId st : String) (res : Option String) (it : BetItem)
    (h : (it.userId == uid && it.createdAt == betId) = false) :
    updateItemFn uid betId st res it = it := by
  unfold updateItemFn
  rw [if_neg (by simp [h])]

/-- C9: the bet-history routes are keyed on the authenticated session's user
id.  Without a session user id both handlers answer 401 and leave the table
untouched; with an authenticated user, the sublist of every other user's
items is exactly preserved by both handlers, and any item whose key differs
from the one addressed by the request survives unchanged — so no request can
modify or delete another user's bet record. -/
theorem betRoutes_owner_scoped (s : Session) (uid : String) (b : UpdateBody)
    (c : Option String) (t : List BetItem) (hs : s.userId = none) :
    (updateBetHandler s b t = (⟨401⟩, t) ∧ deleteBetHandler s c t = (⟨401⟩, t))
    ∧ ((updateBetHandler (.activeUser uid) b t).2.filter (fun it => it.userId != uid) =
        t.filter (fun it => it.userId != uid))
    ∧ ((deleteBetHandler (.activeUser uid) c t).2.filter (fun it => it.userId != uid) =
        t.filter (fun it => it.userId != uid))
    ∧ (∀ it, it ∈ t → (it.userId == uid && it.createdAt == b.betId.getD "") = false →
        it ∈ (updateBetHandler (.activeUser uid) b t).2)
    ∧ (∀ it, it ∈ t → (it.userId == uid && it.createdAt == c.getD "") = false →
        it ∈ (deleteBetHandler (.activeUser uid) c t).2) := by
  refine ⟨?_, ?_, ?_, ?_, ?_⟩
  · cases s with
    | noSession => exact ⟨rfl, rfl⟩
    | userWithoutId => exact ⟨rfl, rfl⟩
    | activeUser i => simp [Session.userId] at hs
  · unfold updateBetHandler
    dsimp only [Session.userId]
    by_cases hbad : (!jsTruthy b.betId || !jsTruthy b.status) = true
    · rw [if_pos hbad]
    · rw [if_neg hbad]
      unfold dynamoUpdateBet
      by_cases hany :
          (t.any fun it => it.userId == uid && it.createdAt == b.betId.getD "") = true
      · rw [if_pos hany]
        exact map_update_filter_other uid _ _ _ t
      · rw [if_neg hany]
  · unfold deleteBetHandler
    dsimp only [Session.userId]
    by_cases hbad : (!jsTruthy c) = true
    · rw [if_pos hbad]
    · rw [if_neg hbad]
      by_cases hex :
          (t.any fun it => it.userId == uid && it.createdAt == c.getD "") = true
      · rw [if_pos hex]
        exact filter_key_filter_other uid _ t
      · rw [if_neg hex]
        exact filter_key_filter_other uid _ t
  · intro it hmem hkey
    unfold updateBetHandler
    dsimp only [Session.userId]
    by_cases hbad : (!jsTruthy b.betId || !jsTruthy b.status) = true
    · rw [if_pos hbad]
      exact hmem
    · rw [if_neg hbad]
      unfold dynamoUpdateBet
      by_cases hany :
          (t.any fun it => it.userId == uid && it.createdAt == b.betId.getD "") = true
      · rw [if_pos hany]
        have hfix :
            updateItemFn uid (b.betId.getD "") ((b.status.getD "").toUpper) b.result it = it :=
          updateItemFn_of_ne_key _ _ _ _ _ hkey
        show it ∈ List.map (updateItemFn uid (b.betId.getD "") ((b.status.getD "").toUpper) b.result) t
        rw [← hfix]
        exact List.mem_map_of_mem _ hmem
      · rw [if_neg hany]
        exact hmem
  · intro it hmem hkey
    unfold deleteBetHandler
    dsimp only [Session.userId]
    by_cases hbad : (!jsTruthy c) = true
    · rw [if_pos hbad]
      exact hmem
    · rw [if_neg hbad]
      by_cases hex :
          (t.any fun it => it.userId == uid && it.createdAt == c.getD "") = true
      · rw [if_pos hex]
        exact List.mem_filter.mpr ⟨hmem, by rw [hkey]; rfl⟩
      · rw [if_neg hex]
        exact List.mem_filter.mpr ⟨hmem, by rw [hkey]; rfl⟩

/-- Witness for C9 with no session and an empty table. -/
theorem betRoutes_owner_scoped_witness :
    updateBetHandler .noSession (UpdateBody.mk none none none) [] = (⟨401⟩, []) ∧
      deleteBetHandler .noSession none [] = (⟨401⟩, []) :=
  (betRoutes_owner_scoped .noSession "u" (UpdateBody.mk none none none) none [] rfl).1

/-- A bet as the previous-bets page holds it: `id` is the createdAt
timestamp (the sort key used by `new Date(a.id) - new Date(b.id)`),
`betAmount` the wager, `status` one of won / lost / pending. -/
structure HistBet where
  id : Nat
  date : String
  betAmount : ℚ
  status : String
deriving DecidableEq

/-- Ordered insertion by date, the building block of the ascending sort the
page applies before accumulating ROI. -/
def insertByDate (b : HistBet) : List HistBet → List HistBet
  | [] => [b]
  | c :: cs => if b.id ≤ c.id then b :: c :: cs else c :: insertByDate b cs

/-- The page's `[...bets].sort((a, b) => new Date(a.id) - new Date(b.id))`:
sort the bets oldest-first. -/
def sortBetsByDate : List HistBet → List HistBet
  | [] => []
  | b :: bs => insertByDate b (sortBetsByDate bs)

/-- One entry of the roiData array pushed per bet. -/
structure RoiPoint where
  betNumber : Nat
  date : String
  roi : ℚ
  invested : ℚ
  returns : ℚ
  profit : ℚ
deriving DecidableEq

/-- Payout credited for a won bet, assuming standard -110 odds:
`bet.betAmount + (bet.betAmount / 1.1)`. -/
def wonPayout (b : HistBet) : ℚ := b.betAmount + b.betAmount / (11/10)

/-- The forEach loop of calculateROI: accumulate invested and returns, and
push one RoiPoint per bet, with ROI 0 whenever cumulative invested is not
positive (so the division is guarded). -/
def roiLoop : List HistBet → ℚ → ℚ → Nat → List RoiPoint
  | [], _, _, _ => []
  | b :: bs, inv, ret, idx =>
    let inv2 := inv + b.betAmount
    let ret2 := if b.status = "won" then ret + wonPayout b else ret
    let roi := if inv2 > 0 then ((ret2 - inv2) / inv2) * 100 else 0
    ⟨idx + 1, b.date, roi, inv2, ret2, ret2 - inv2⟩ :: roiLoop bs inv2 ret2 (idx + 1)

/-- calculateROI of src/frontend/app/previous-bets/page.jsx: sort the bets
oldest-first, then fold the loop with zero accumulators. -/
def calculateROI (bets : List HistBet) : List RoiPoint :=
  roiLoop (sortBetsByDate bets) 0 0 0

/-- Total wagered over the first n bets of a list. -/
def investedUpTo (l : List HistBet) (n : Nat) : ℚ :=
  ((l.take n).map (fun b => b.betAmount)).sum

/-- Total returns over the first n bets of a list: won bets pay
`betAmount + betAmount / 1.1`, lost and pending bets contribute zero. -/
def returnsUpTo (l : List HistBet) (n : Nat) : ℚ :=
  ((l.take n).map (fun b => if b.status = "won" then wonPayout b else 0)).sum

theorem investedUpTo_cons (b : HistBet) (bs : List HistBet) (n : Nat) :
    investedUpTo (b :: bs) (n + 1) = b.betAmount + investedUpTo bs n := by
  simp [investedUpTo]

theorem returnsUpTo_cons (b : HistBet) (bs : List HistBet) (n : Nat) :
    returnsUpTo (b :: bs) (n + 1) =
      (if b.status = "won" then wonPayout b else 0) + returnsUpTo bs n := by
  simp [returnsUpTo]

theorem stepRet_eq (ret : ℚ) (b : HistBet) :
    (if b.status = "won" then ret + wonPayout b else ret) =
      ret + (if b.status = "won" then wonPayout b else 0) := by
  split <;> ring

theorem roiLoop_length (l : List HistBet) :
    ∀ (inv ret : ℚ) (idx : Nat), (roiLoop l inv ret idx).length = l.length := by
  induction l with
  | nil => intro inv ret idx; rfl
  | cons b bs ih =>
    intro inv ret idx
    unfold roiLoop
    simp [ih]

theorem insertByDate_perm (b : HistBet) (l : List HistBet) :
    (insertByDate b l).Perm (b :: l) := by
  induction l with
  | nil => exact List.Perm.refl _
  | cons c cs ih =>
    unfold insertByDate
    split
    · exact List.Perm.refl _
    · exact (List.Perm.cons c ih).trans (List.Perm.swap b c cs)

theorem sortBetsByDate_perm (l : List HistBet) : (sortBetsByDate l).Perm l := by
  induction l with
  | nil => exact List.Perm.refl _
  | cons b bs ih =>
    unfold sortBetsByDate
    exact (insertByDate_perm b _).trans (List.Perm.cons b ih)

theorem insertByDate_sorted (b : HistBet) (l : List HistBet)
    (hl : List.Pairwise (fun x y => x.id ≤ y.id) l) :
    List.Pairwise (fun x y => x.id ≤ y.id) (insertByDate b l) := by
  induction l with
  | nil => simp [insertByDate]
  | cons c cs ih =>
    obtain ⟨hc, hcs⟩ := List.pairwise_cons.mp hl
    unfold insertByDate
    split
    · refine List.Pairwise.cons ?_ hl
      intro y hy
      rcases List.mem_cons.mp hy with rfl | hy2
      · assumption
      · exact le_trans (by assumption) (hc y hy2)
    · refine List.Pairwise.cons ?_ (ih hcs)
      intro y hy
      have hy2 : y ∈ b :: cs := (insertByDate_perm b cs).mem_iff.mp hy
      rcases List.mem_cons.mp hy2 with rfl | hy3
      · omega
      · exact hc y hy3

theorem sortBetsByDate_sorted (l : List HistBet) :
    List.Pairwise (fun x y => x.id ≤ y.id) (sortBetsByDate l) := by
  induction l with
  | nil => exact List.Pairwise.nil
  | cons b bs ih => exact insertByDate_sorted b _ ih

theorem roiLoop_get_spec (l : List HistBet) :
    ∀ (inv ret : ℚ) (idx i : Nat) (h : i < (roiLoop l inv ret idx).length),
      ((roiLoop l inv ret idx).get ⟨i, h⟩).invested = inv + investedUpTo l (i + 1)
      ∧ ((roiLoop l inv ret idx).get ⟨i, h⟩).returns = ret + returnsUpTo l (i + 1)
      ∧ ((roiLoop l inv ret idx).get ⟨i, h⟩).roi =
          (if 0 < inv + investedUpTo l (i + 1) then
            ((ret + returnsUpTo l (i + 1) - (inv + investedUpTo l (i + 1))) /
              (inv + investedUpTo l (i + 1))) * 100
          else 0) := by
  induction l with
  | nil =>
    intro inv ret idx i h
    simp [roiLoop] at h
  | cons b bs ih =>
    intro inv ret idx i h
    cases i with
    | zero =>
      refine ⟨?_, ?_, ?_⟩ <;>
        simp [roiLoop, investedUpTo_cons, returnsUpTo_cons, investedUpTo, returnsUpTo,
          stepRet_eq]
    | succ i =>
      have h' : i < (roiLoop bs (inv + b.betAmount)
          (if b.status = "won" then ret + wonPayout b else ret) (idx + 1)).length := by
        have hlen := roiLoop_length (b :: bs) inv ret idx
        rw [roiLoop_length] at h ⊢
        simpa using h
      obtain ⟨h1, h2, h3⟩ := ih (inv + b.betAmount)
        (if b.status = "won" then ret + wonPayout b else ret) (idx + 1) i h'
      have e1 : inv + b.betAmount + investedUpTo bs (i + 1) =
          inv + investedUpTo (b :: bs) (i + 1 + 1) := by
        rw [investedUpTo_cons]
        ring
      have e2 : (if b.status = "won" then ret + wonPayout b else ret) +
            returnsUpTo bs (i + 1) =
          ret + returnsUpTo (b :: bs) (i + 1 + 1) := by
        rw [returnsUpTo_cons, stepRet_eq]
        ring
      have hget : (roiLoop (b :: bs) inv ret idx).get ⟨i + 1, h⟩ =
          (roiLoop bs (inv + b.betAmount)
            (if b.status = "won" then ret + wonPayout b else ret) (idx + 1)).get ⟨i, h'⟩ := rfl
      rw [hget]
      refine ⟨?_, ?_, ?_⟩
      · rw [h1, e1]
      · rw [h2, e2]
      · rw [h3, e1, e2]

/-- C10: calculateROI processes the bets sorted oldest-first (the processed
list is sorted by date and is a permutation of the input), produces one
entry per bet, and for every index reports invested as the sum of all bet
amounts so far (pending included), returns as the sum over won bets of
betAmount + betAmount/1.1 with lost and pending bets contributing zero, and
ROI as ((returns − invested)/invested)·100 — reported as 0 when invested is
0, so the division is never performed with a zero denominator (bet amounts
are taken nonnegative, as wagers are). -/
theorem calculateROI_spec (bets : List HistBet)
    (hamt : ∀ b, b ∈ bets → 0 ≤ b.betAmount) :
    (calculateROI bets).length = bets.length
    ∧ List.Pairwise (fun x y => x.id ≤ y.id) (sortBetsByDate bets)
    ∧ (sortBetsByDate bets).Perm bets
    ∧ ∀ (i : Nat) (h : i < (calculateROI bets).length),
        ((calculateROI bets).get ⟨i, h⟩).invested = investedUpTo (sortBetsByDate bets) (i + 1)
        ∧ ((calculateROI bets).get ⟨i, h⟩).returns = returnsUpTo (sortBetsByDate bets) (i + 1)
        ∧ (investedUpTo (sortBetsByDate bets) (i + 1) = 0 →
            ((calculateROI bets).get ⟨i, h⟩).roi = 0)
        ∧ (investedUpTo (sortBetsByDate bets) (i + 1) ≠ 0 →
            ((calculateROI bets).get ⟨i, h⟩).roi =
              ((returnsUpTo (sortBetsByDate bets) (i + 1) -
                  investedUpTo (sortBetsByDate bets) (i + 1)) /
                investedUpTo (sortBetsByDate bets) (i + 1)) * 100) := by
  have hperm := sortBetsByDate_perm bets
  refine ⟨?_, sortBetsByDate_sorted bets, hperm, ?_⟩
  · unfold calculateROI
    rw [roiLoop_length]
    exact hperm.length_eq
  · intro i h
    unfold calculateROI at h ⊢
    obtain ⟨h1, h2, h3⟩ := roiLoop_get_spec (sortBetsByDate bets) 0 0 0 i h
    simp only [zero_add] at h1 h2 h3
    have hnn : 0 ≤ investedUpTo (sortBetsByDate bets) (i + 1) := by
      unfold investedUpTo
      apply List.sum_nonneg
      intro x hx
      obtain ⟨bb, hbb, rfl⟩ := List.mem_map.mp hx
      exact hamt bb (hperm.mem_iff.mp (List.take_subset _ _ hbb))
    refine ⟨h1, h2, ?_, ?_⟩
    · intro hz
      rw [h3, hz]
      norm_num
    · intro hz
      rw [h3, if_pos (lt_of_le_of_ne hnn (Ne.symm hz))]

/-- Witness for C10 on a two-bet history (one won, one lost, given
newest-first as the API returns them). -/
theorem calculateROI_spec_witness :
    (calculateROI [HistBet.mk 2 "b" 50 "lost", HistBet.mk 1 "a" 100 "won"]).length =
      [HistBet.mk 2 "b" 50 "lost", HistBet.mk 1 "a" 100 "won"].length :=
  (calculateROI_spec [HistBet.mk 2 "b" 50 "lost", HistBet.mk 1 "a" 100 "won"]
    (by intro b hb; simp at hb; rcases hb with rfl | rfl <;> norm_num)).1
